import Mathlib

/-!
Shallow embedding of the ValidKit TypeScript SDK request engine
(`src/client.ts` — the `ValidKit` class — and `src/errors.ts`).

JavaScript values visible to the modelled code are embedded as follows:
* a JS string that may be `null`/`undefined` is `Option String`;
* a JS number that is always set but may be `NaN` (the result of
  `parseInt` on garbage) is `Option Int`, `none` standing for `NaN`;
* a field that may be `undefined` is wrapped in one more `Option`;
* JS truthiness is made explicit (`""`, `0`, `NaN`, `undefined`, `null`
  are falsy).
Only the fields the verified properties depend on are modelled; payload
fields the client merely copies through (mx, smtp, …) are elided.
-/

namespace ValidKit

/-- JS truthiness of a nullable string: `null`/`undefined` and `""` are falsy. -/
def strTruthy : Option String → Bool
  | some s => s ≠ ""
  | none => false

/-- `o || d` for a nullable string with string default (JS `||`). -/
def strOrD (o : Option String) (d : String) : String :=
  match o with
  | some s => if s = "" then d else s
  | none => d

/-- JS truthiness of a number that may be `NaN` (`none`): `0` and `NaN`
are falsy.  Returns the value when truthy. -/
def numTruthy : Option Int → Option Int
  | some v => if v = 0 then none else some v
  | none => none

/-- JavaScript `parseInt(s)` (radix 10): skip leading whitespace, read an
optional sign and then leading decimal digits; `NaN` (= `none`) when no
digit is found. -/
def parseIntJs (s : String) : Option Int :=
  let cs := s.toList.dropWhile (·.isWhitespace)
  let signed : Bool × List Char :=
    match cs with
    | '-' :: rest => (true, rest)
    | '+' :: rest => (false, rest)
    | _ => (false, cs)
  let digits := signed.2.takeWhile (·.isDigit)
  if digits.isEmpty then none
  else
    let n : Nat := digits.foldl (fun acc c => acc * 10 + (c.toNat - 48)) 0
    some (if signed.1 then -(n : Int) else (n : Int))

/-- The response headers the client reads (each `none` when absent). -/
structure Headers where
  xRateLimitLimit : Option String := none
  xRateLimitRemaining : Option String := none
  xRateLimitReset : Option String := none
  retryAfter : Option String := none
  deriving Repr, DecidableEq

/-- `RateLimitInfo` (src/types): `limit`/`remaining`/`reset` are JS
numbers (possibly `NaN` = `none`); `retry_after` may additionally be
`undefined` (outer `none`). -/
structure RateLimitInfo where
  limit : Option Int := some 0
  remaining : Option Int := some 0
  reset : Option Int := some 0
  retry_after : Option (Option Int) := none
  deriving Repr, DecidableEq

/-- Rate-limit extraction in `ValidKit.makeRequest` (client.ts):
`response.headers.get('X-RateLimit-Limit') ? { limit: parseInt(get(..) || '0'),
… , retry_after: get('Retry-After') ? parseInt(..) : undefined } : undefined`. -/
def extractRateLimit (h : Headers) : Option RateLimitInfo :=
  if strTruthy h.xRateLimitLimit then
    some {
      limit := parseIntJs (strOrD h.xRateLimitLimit "0"),
      remaining := parseIntJs (strOrD h.xRateLimitRemaining "0"),
      reset := parseIntJs (strOrD h.xRateLimitReset "0"),
      retry_after :=
        match h.retryAfter with
        | some s => if s = "" then none else some (parseIntJs s)
        | none => none }
  else none

/-- The `details` record carried by errors; only the keys the SDK reads
back (`retry_after`, `rate_limit`) are modelled. -/
structure ErrDetails where
  retry_after : Option Int := none
  rate_limit : Option RateLimitInfo := none
  deriving Repr, DecidableEq

/-- Structured error payload extracted from a failed response body
(`ValidKitErrorDetails`): `message`, machine `code`, `details`. -/
structure ErrorData where
  message : Option String := none
  code : Option String := none
  details : Option ErrDetails := none
  deriving Repr, DecidableEq

/-- The closed set of failure categories of the error taxonomy
(errors.ts subclasses of `ValidKitError`). -/
inductive ErrCategory where
  | invalidCredential   -- InvalidAPIKeyError
  | rateLimited         -- RateLimitError
  | validation          -- ValidationError
  | batchTooLarge       -- BatchSizeError
  | timeout             -- TimeoutError
  | connectionFailed    -- ConnectionError
  | serverError         -- ServerError
  | generic             -- base ValidKitError
  deriving Repr, DecidableEq

/-- A typed error: the category tag stands for the concrete subclass,
`rateLimit` for `RateLimitError.rateLimit` (captured at construction). -/
structure VKError where
  category : ErrCategory
  message : String
  code : String
  statusCode : Option Int := none
  details : Option ErrDetails := none
  rateLimit : Option RateLimitInfo := none
  deriving Repr, DecidableEq

/-- `new InvalidAPIKeyError(msg, details)` — status 401, code INVALID_API_KEY. -/
def mkInvalidAPIKeyError (message : String) (details : Option ErrDetails := none) : VKError :=
  { category := .invalidCredential, message, code := "INVALID_API_KEY",
    statusCode := some 401, details }

/-- `new RateLimitError(msg, details)` — the constructor captures
`details.rate_limit` into the `rateLimit` field when truthy. -/
def mkRateLimitError (message : String) (details : Option ErrDetails := none) : VKError :=
  { category := .rateLimited, message, code := "RATE_LIMIT_EXCEEDED",
    statusCode := some 429, details,
    rateLimit := details.bind (·.rate_limit) }

/-- `new BatchSizeError(msg, details)` — status 400, code BATCH_SIZE_EXCEEDED. -/
def mkBatchSizeError (message : String) (details : Option ErrDetails := none) : VKError :=
  { category := .batchTooLarge, message, code := "BATCH_SIZE_EXCEEDED",
    statusCode := some 400, details }

/-- `new TimeoutError(msg, details)` — status 408, code TIMEOUT. -/
def mkTimeoutError (message : String) (details : Option ErrDetails := none) : VKError :=
  { category := .timeout, message, code := "TIMEOUT",
    statusCode := some 408, details }

/-- `new ConnectionError(msg, details)` — status 0, code CONNECTION_ERROR. -/
def mkConnectionError (message : String) (details : Option ErrDetails := none) : VKError :=
  { category := .connectionFailed, message, code := "CONNECTION_ERROR",
    statusCode := some 0, details }

/-- `new ServerError(msg, details)` — status 500, code SERVER_ERROR. -/
def mkServerError (message : String) (details : Option ErrDetails := none) : VKError :=
  { category := .serverError, message, code := "SERVER_ERROR",
    statusCode := some 500, details }

/-- `new ValidationError(msg, details)` — status 400, code VALIDATION_ERROR. -/
def mkValidationError (message : String) (details : Option ErrDetails := none) : VKError :=
  { category := .validation, message, code := "VALIDATION_ERROR",
    statusCode := some 400, details }

/-- `errorData?.message || dflt` (JS `||` on a possibly-absent string). -/
def msgOr (errorData : Option ErrorData) (dflt : String) : String :=
  strOrD (errorData.bind (·.message)) dflt

/-- `ValidKitError.fromApiResponse(response, errorData)` (errors.ts):
classify an HTTP status plus optional structured payload into one typed
error.  `statusText` is the HTTP reason phrase of the response. -/
def fromApiResponse (status : Nat) (statusText : String)
    (errorData : Option ErrorData) : VKError :=
  let details := errorData.bind (·.details)
  if status = 401 then
    mkInvalidAPIKeyError (msgOr errorData "Invalid or missing API key") details
  else if status = 429 then
    mkRateLimitError (msgOr errorData "Rate limit exceeded") details
  else if status = 400 then
    if errorData.bind (·.code) = some "BATCH_SIZE_EXCEEDED" then
      mkBatchSizeError (msgOr errorData "Batch size exceeds maximum limit") details
    else
      mkValidationError (strOrD (errorData.bind (·.message))
        (strOrD (some statusText) "Validation failed")) details
  else if status = 408 ∨ status = 504 then
    mkTimeoutError (msgOr errorData "Request timed out") details
  else if status = 500 ∨ status = 502 then
    mkServerError (msgOr errorData "Internal server error") details
  else if status = 503 then
    mkServerError (msgOr errorData "Service temporarily unavailable") details
  else
    { category := .generic,
      message := strOrD (errorData.bind (·.message))
        (strOrD (some statusText) ("API request failed with status " ++ toString status)),
      code :=
        match errorData.bind (·.code) with
        | some c => if c = "" then "VALIDKIT_ERROR" else c
        | none => "VALIDKIT_ERROR",
      statusCode := some (status : Int),
      details }

/-- `RateLimitError.getRetryDelay()` (errors.ts), with `Date.now()`
passed in as `now`.  The chain of truthiness checks, in source order:
`details?.rate_limit?.retry_after`, then `details?.retry_after`, then
`this.rateLimit?.retry_after`, then `this.rateLimit?.reset`, else 60000. -/
def rateLimitRetryDelay (e : VKError) (now : Int) : Int :=
  match numTruthy ((e.details.bind (·.rate_limit)).bind (fun rl => rl.retry_after.getD none)) with
  | some v => v * 1000
  | none =>
    match numTruthy (e.details.bind (·.retry_after)) with
    | some v => v * 1000
    | none =>
      match numTruthy (e.rateLimit.bind (fun rl => rl.retry_after.getD none)) with
      | some v => v * 1000
      | none =>
        match numTruthy (e.rateLimit.bind (·.reset)) with
        | some r => max 0 (r * 1000 - now)
        | none => 60000

/-- Refinement reference for the claimed retry-delay precedence,
following the claim's words: (1) an explicit retry-after value in the
structured detail map (seconds → ms); (2) a retry-after value nested
inside the attached Rate Limit Info; (3) `max(0, reset_ms − now)`;
(4) default 60000 ms.  (A zero value counts as absent, matching the
source's truthiness checks.)  To be compared with
`rateLimitRetryDelay`, the derivation translated from the source. -/
def claimedRateLimitDelayC2 (e : VKError) (now : Int) : Int :=
  match numTruthy (e.details.bind (·.retry_after)) with
  | some v => v * 1000
  | none =>
    match numTruthy ((e.details.bind (·.rate_limit)).bind (fun rl => rl.retry_after.getD none)) with
    | some v => v * 1000
    | none =>
      match numTruthy ((e.details.bind (·.rate_limit)).bind (·.reset)) with
      | some r => max 0 (r * 1000 - now)
      | none => 60000

/-- Refinement reference for the amended retry-delay precedence,
following the source's order: (1) retry-after nested inside the detail
map's rate-limit info; (2) direct retry-after in the detail map; (3)
retry-after of the constructor-captured info; (4) `max(0, reset_ms −
now)` from the constructor-captured info; (5) 60000 ms. -/
def amendedRateLimitDelayC2 (e : VKError) (now : Int) : Int :=
  match numTruthy ((e.details.bind (·.rate_limit)).bind (fun rl => rl.retry_after.getD none)) with
  | some v => v * 1000
  | none =>
    match numTruthy (e.details.bind (·.retry_after)) with
    | some v => v * 1000
    | none =>
      match numTruthy (e.rateLimit.bind (fun rl => rl.retry_after.getD none)) with
      | some v => v * 1000
      | none =>
        match numTruthy (e.rateLimit.bind (·.reset)) with
        | some r => max 0 (r * 1000 - now)
        | none => 60000

/-- `ValidKit.shouldRetry(error, retries)` (client.ts): never past
`max_retries`; never for `InvalidAPIKeyError` / `ValidationError` /
`BatchSizeError`; otherwise only the four retryable subclasses. -/
def shouldRetry (maxRetries : Nat) (e : VKError) (retries : Nat) : Bool :=
  if retries ≥ maxRetries then false
  else if e.category = .invalidCredential ∨ e.category = .validation ∨
          e.category = .batchTooLarge then false
  else
    e.category = .rateLimited ∨ e.category = .timeout ∨
    e.category = .connectionFailed ∨ e.category = .serverError

/-- `ValidKit.getRetryDelay(error, retries)` (client.ts):
`RateLimitError`s use their own derivation; every other error gets
exponential backoff `min(1000 * 2^retries, 30000)`. -/
def getRetryDelay (e : VKError) (retries : Nat) (now : Int) : Int :=
  if e.category = .rateLimited then rateLimitRetryDelay e now
  else min (1000 * 2 ^ retries) 30000

/-- What the outside world does for one `fetch` attempt:
either the fetch itself throws (`transport`, with `isAbort` true when the
timeout fired an `AbortError`), or a response arrives (`http`), carrying
its status, reason phrase, headers, the parsed structured error payload
(`none` when the body is not valid JSON), and — for 2xx — the decoded
success body (`none` when `response.json()` throws).  `jsonErrMsg` is the
`message` of the exception thrown by a failing `response.json()`. -/
inductive Outcome (D : Type) where
  | transport (isAbort : Bool) (errMsg : String)
  | http (status : Nat) (statusText : String) (headers : Headers)
      (errorData : Option ErrorData) (okBody : Option D) (jsonErrMsg : String := "")

/-- One attempt of `ValidKit.makeRequest`, up to (but not including) the
retry decision: classify the outcome into a success body or a typed
error, exactly as the source's try/catch does. -/
def classifyOutcome {D : Type} (timeoutMs : Nat) (o : Outcome D) : Except VKError D :=
  match o with
  | .transport isAbort errMsg =>
    if isAbort then
      .error (mkTimeoutError ("Request timed out after " ++ toString timeoutMs ++ "ms"))
    else
      .error (mkConnectionError ("Request failed: " ++ errMsg))
  | .http status statusText headers errorData okBody jsonErrMsg =>
    let rateLimit := extractRateLimit headers
    if 200 ≤ status ∧ status < 300 then
      match okBody with
      | some d => .ok d
      | none =>
        -- `await response.json()` threw; the catch block sees a non-ValidKit,
        -- non-Abort exception and wraps it in a ConnectionError.
        .error (mkConnectionError ("Request failed: " ++ jsonErrMsg))
    else
      let e := fromApiResponse status statusText errorData
      -- `if (error instanceof RateLimitError && rateLimit) error.details = {...}`
      if e.category = .rateLimited ∧ rateLimit.isSome then
        .error { e with details := some { (e.details.getD {}) with rate_limit := rateLimit } }
      else
        .error e

/-- The observable record of one `makeRequest` run: how many HTTP calls
were issued, the sleep delays between them, and the final outcome. -/
structure RunResult (D : Type) where
  calls : Nat
  delays : List Int
  result : Except VKError D
  deriving Repr

/-- `ValidKit.makeRequest` (client.ts).  The world is an oracle giving
the outcome of each attempt (attempt `retries` is the `retries+1`-th
call) and the value of `Date.now()` at each retry decision.  The source
recurses with `retries + 1` exactly when `shouldRetry` holds, after
sleeping `getRetryDelay`. -/
def makeRequest {D : Type} (maxRetries timeoutMs : Nat)
    (oracle : Nat → Outcome D) (now : Nat → Int) (retries : Nat) : RunResult D :=
  match classifyOutcome timeoutMs (oracle retries) with
  | .ok d => { calls := 1, delays := [], result := .ok d }
  | .error e =>
    if h : shouldRetry maxRetries e retries then
      let rest := makeRequest maxRetries timeoutMs oracle now (retries + 1)
      { calls := rest.calls + 1,
        delays := getRetryDelay e retries (now retries) :: rest.delays,
        result := rest.result }
    else { calls := 1, delays := [], result := .error e }
termination_by maxRetries - retries
decreasing_by
  have hlt : retries < maxRetries := by
    by_contra hge
    simp [shouldRetry] at h hge
    omega
  omega

/-- `ResponseFormat` (src/types): `full` or `compact`. -/
inductive ResponseFormat where
  | full
  | compact
  deriving Repr, DecidableEq

/-- A per-check sub-object of the remote result, as read by the client
(`result.disposable?.value`); `value` may be absent. -/
structure DispCheck where
  value : Option Bool := none
  deriving Repr, DecidableEq

/-- The nested `result` object of the remote envelope.  Only the fields
the verified properties depend on are modelled (`valid` and the
disposable check); the remaining per-check fields are copied through
verbatim by the client. -/
structure InnerResult where
  valid : Bool
  disposable : Option DispCheck := none
  deriving Repr, DecidableEq

/-- Compact result: `v` plus optional `d` / `r` / `trace_id` keys, each
`Option` because JS object-spread includes them conditionally. -/
structure CompactResult where
  v : Bool
  d : Option Bool := none
  r : Option String := none
  trace_id : Option String := none
  deriving Repr, DecidableEq

/-- Full (flattened) result; modelled subset of the fields the client
lifts out of the envelope. -/
structure FullResult where
  success : Bool
  email : String
  valid : Bool
  disposable : Option DispCheck := none
  trace_id : Option String := none
  request_id : Option String := none
  deriving Repr, DecidableEq

/-- The remote envelope for a single verification: top-level fields plus
the nested `result` (the `'result' in apiResponse && 'email' in
apiResponse` shape). -/
structure SingleEnvelope where
  success : Bool
  email : String
  result : InnerResult
  trace_id : Option String := none
  request_id : Option String := none
  deriving Repr, DecidableEq

/-- Decoded body of a single-verify response: either the expected nested
envelope shape or anything else (passed through unchanged). -/
inductive SingleBody where
  | nested (env : SingleEnvelope)
  | other
  deriving Repr, DecidableEq

/-- Normalized output of `verifyEmail`: a compact result, a flattened
full result, or the raw body passed through (fallback). -/
inductive SingleOut where
  | compactOut (c : CompactResult)
  | fullOut (f : FullResult)
  | raw (b : SingleBody)
  deriving Repr, DecidableEq

/-- Truthiness of `result.disposable?.value`. -/
def dispTruthy (r : InnerResult) : Bool :=
  (r.disposable.bind (·.value)).getD false

/-- The response-normalization tail of `ValidKit.verifyEmail`
(client.ts): on the nested shape, downgrade to compact when requested
(`v`, conditional `d: true`, conditional `trace_id`, never `r`), else
flatten to the full shape; otherwise return the body as-is. -/
def verifyEmailNormalize (format : ResponseFormat) (body : SingleBody) : SingleOut :=
  match body with
  | .nested env =>
    if format = .compact then
      .compactOut {
        v := env.result.valid,
        d := if dispTruthy env.result then some true else none,
        trace_id := if strTruthy env.trace_id then env.trace_id else none }
    else
      .fullOut {
        success := env.success,
        email := env.email,
        valid := env.result.valid,
        disposable := env.result.disposable,
        trace_id := env.trace_id,
        request_id := env.request_id }
  | .other => .raw body

/-- One element of the `results` array of the enveloped batch shape:
an echoed email plus the nested result (`none` when the `result` key is
absent/falsy). -/
structure BatchEntry where
  success : Bool := true
  email : String
  result : Option InnerResult := none
  deriving Repr, DecidableEq

/-- Decoded body of a batch chunk response:
* `indexedObj`: a JS object without a `results` key, read only through
  `apiResponse[index]` lookups (keys are stringified indices);
* `withResults`: an object with a `results` array plus echoed ids;
* `nonObj`: not an object at all. -/
inductive BatchBody where
  | indexedObj (entries : List (Nat × CompactResult))
  | withResults (results : List BatchEntry) (trace_id : Option String := none)
      (request_id : Option String := none)
  | nonObj
  deriving Repr, DecidableEq

/-- A value of the normalized batch result map. -/
inductive OutVal where
  | compact (c : CompactResult)
  | fullv (f : FullResult)
  deriving Repr, DecidableEq

/-- Normalized output of one batch chunk: an email-keyed record, or the
raw body passed through (fallback). -/
inductive BatchChunkOut where
  | map (m : List (String × OutVal))
  | raw (b : BatchBody)
  deriving Repr, DecidableEq

/-- JS record assignment `m[k] = v`: overwrite in place when the key
exists, append otherwise. -/
def recInsert (m : List (String × OutVal)) (k : String) (v : OutVal) :
    List (String × OutVal) :=
  if m.any (·.1 = k) then m.map (fun p => if p.1 = k then (k, v) else p)
  else m ++ [(k, v)]

/-- `apiResponse[index]` on the indexed shape. -/
def lookupIdx (entries : List (Nat × CompactResult)) (i : Nat) : Option CompactResult :=
  (entries.find? (·.1 = i)).map (·.2)

/-- One step of the indexed-shape `forEach` of
`ValidKit.processBatchChunk`: `if (apiResponse[index])
emailResults[email] = apiResponse[index]`. -/
def insertIndexed (entries : List (Nat × CompactResult))
    (acc : List (String × OutVal)) (p : Nat × String) : List (String × OutVal) :=
  match lookupIdx entries p.1 with
  | some v => recInsert acc p.2 (.compact v)
  | none => acc

/-- One step of the `results.forEach` of `ValidKit.processBatchChunk`:
entries with truthy `email` and `result` are keyed by their echoed
email, compacted or flattened per the requested format. -/
def insertEntry (format : ResponseFormat) (trace_id request_id : Option String)
    (acc : List (String × OutVal)) (entry : BatchEntry) : List (String × OutVal) :=
  match entry.result with
  | some inner =>
    if entry.email ≠ "" then
      if format = .compact then
        recInsert acc entry.email (.compact {
          v := inner.valid,
          d := if dispTruthy inner then some true else none,
          trace_id := if strTruthy trace_id then trace_id else none })
      else
        recInsert acc entry.email (.fullv {
          success := entry.success,
          email := entry.email,
          valid := inner.valid,
          disposable := inner.disposable,
          trace_id := trace_id,
          request_id := request_id })
    else acc
  | none => acc

/-- The response-normalization tail of `ValidKit.processBatchChunk`
(client.ts).  First branch: compact format requested and the body is an
object without a `results` key — re-key by the submitted chunk's
positional email (`emails.forEach((email, index) => if (apiResponse[index])
emailResults[email] = apiResponse[index])`).  Second branch: a `results`
array — key each entry with truthy `email` and `result` by its echoed
email, compacting or flattening per the requested format.  Otherwise the
raw body is returned unchanged. -/
def processBatchChunk (emails : List String) (format : ResponseFormat)
    (body : BatchBody) : BatchChunkOut :=
  match format, body with
  | .compact, .indexedObj entries =>
    .map (emails.enum.foldl (insertIndexed entries) [])
  | _, _ =>
    match body with
    | .withResults results trace_id request_id =>
      .map (results.foldl (insertEntry format trace_id request_id) [])
    | _ => .raw body

/-- `MAX_BATCH_SIZE` (client.ts). -/
def MAX_BATCH_SIZE : Nat := 10000

/-- `ValidKit.chunkArray(array, chunkSize)` (client.ts): consecutive
slices of at most `chunkSize` elements.  The source's `for` loop does
not terminate when `chunkSize = 0`; that case is unreachable (chunk
sizes are positive) and every theorem below assumes `0 < chunkSize`. -/
def chunkArray (l : List String) (chunkSize : Nat) : List (List String) :=
  if l.isEmpty then []
  else if chunkSize = 0 then []
  else l.take chunkSize :: chunkArray (l.drop chunkSize) chunkSize
termination_by l.length
decreasing_by
  rename_i h0 h1
  simp [List.isEmpty_iff] at h0
  have hpos : 0 < l.length := List.length_pos.mpr h0
  simp [List.length_drop]
  omega

/-- The observable record of one `verifyBatch` run: how many chunk-level
network calls were issued, the arguments passed to the progress callback
(in invocation order), and the outcome — the list of per-chunk
normalized outputs (which the source merges into one record via
`Object.assign`) or the first terminal error. -/
structure BatchRun where
  networkCalls : Nat
  progress : List (Nat × Nat)
  result : Except VKError (List BatchChunkOut)
  deriving Repr

/-- The chunk loop of `ValidKit.verifyBatch`: strictly sequential; after
each successful chunk the progress callback receives the cumulative
processed count and the total; a failing chunk aborts the whole run. -/
def runChunks (format : ResponseFormat)
    (oracle : List String → Except VKError BatchBody) (total : Nat) :
    List (List String) → Nat → BatchRun
  | [], _ => { networkCalls := 0, progress := [], result := .ok [] }
  | c :: rest, processed =>
    match oracle c with
    | .error e => { networkCalls := 1, progress := [], result := .error e }
    | .ok body =>
      let r := runChunks format oracle total rest (processed + c.length)
      { networkCalls := r.networkCalls + 1,
        progress := (processed + c.length, total) :: r.progress,
        result := r.result.map (processBatchChunk c format body :: ·) }

/-- `ValidKit.verifyBatch` (client.ts), with the network abstracted into
a per-chunk oracle (the `makeRequest`-backed call of
`processBatchChunk`, returning the decoded body or a terminal typed
error).  Empty input raises validation, length > 10000 raises
batch-too-large, both before any network call; inputs that fit in one
chunk are processed directly (no progress callback); larger inputs go
through the sequential chunk loop. -/
def verifyBatchRun (emails : List String) (format : ResponseFormat)
    (chunkSize : Nat) (oracle : List String → Except VKError BatchBody) : BatchRun :=
  if emails.isEmpty then
    { networkCalls := 0, progress := [],
      result := .error (mkValidationError "Emails must be a non-empty array") }
  else if emails.length > MAX_BATCH_SIZE then
    { networkCalls := 0, progress := [],
      result := .error (mkBatchSizeError
        ("Batch size cannot exceed " ++ toString MAX_BATCH_SIZE ++
         " emails. Use verifyBatchAsync for larger batches.")) }
  else if emails.length ≤ chunkSize then
    match oracle emails with
    | .ok body =>
      { networkCalls := 1, progress := [],
        result := .ok [processBatchChunk emails format body] }
    | .error e => { networkCalls := 1, progress := [], result := .error e }
  else
    runChunks format oracle emails.length (chunkArray emails chunkSize) 0

/-! ## Helper lemmas -/

theorem shouldRetry_lt {maxRetries : Nat} {e : VKError} {retries : Nat}
    (h : shouldRetry maxRetries e retries = true) : retries < maxRetries := by
  by_contra hge
  simp [shouldRetry] at h hge
  omega

theorem makeRequest_calls_le_aux {D : Type} (maxRetries timeoutMs : Nat)
    (oracle : Nat → Outcome D) (now : Nat → Int) :
    ∀ (k retries : Nat), maxRetries ≤ retries + k →
      (makeRequest maxRetries timeoutMs oracle now retries).calls ≤ (maxRetries - retries) + 1 := by
  intro k
  induction k with
  | zero =>
    intro retries hk
    rw [makeRequest]
    split
    · simp
    · rename_i e _
      rw [dif_neg]
      · simp
      · intro hsr
        have := shouldRetry_lt hsr
        omega
  | succ n ih =>
    intro retries hk
    rw [makeRequest]
    split
    · simp
    · rename_i e _
      by_cases hsr : shouldRetry maxRetries e retries = true
      · rw [dif_pos hsr]
        have hlt := shouldRetry_lt hsr
        have hrec := ih (retries + 1) (by omega)
        simp only
        omega
      · rw [dif_neg hsr]
        simp

theorem makeRequest_const_error {D : Type} (maxRetries timeoutMs : Nat)
    (oracle : Nat → Outcome D) (now : Nat → Int) (e : VKError)
    (hcl : ∀ k, classifyOutcome timeoutMs (oracle k) = .error e)
    (hret : e.category = .rateLimited ∨ e.category = .timeout ∨
            e.category = .connectionFailed ∨ e.category = .serverError) :
    ∀ (k retries : Nat), maxRetries ≤ retries + k →
      (makeRequest maxRetries timeoutMs oracle now retries).calls = (maxRetries - retries) + 1 ∧
      (makeRequest maxRetries timeoutMs oracle now retries).result = .error e := by
  have hsrTrue : ∀ r, r < maxRetries → shouldRetry maxRetries e r = true := by
    intro r hr
    unfold shouldRetry
    rw [if_neg (by omega)]
    rcases hret with h | h | h | h <;> simp [h]
  have hsrFalse : ∀ r, maxRetries ≤ r → shouldRetry maxRetries e r = false := by
    intro r hr
    unfold shouldRetry
    rw [if_pos (by omega)]
  intro k
  induction k with
  | zero =>
    intro retries hk
    rw [makeRequest, hcl retries]
    dsimp only
    rw [dif_neg (by simp [hsrFalse retries (by omega)])]
    constructor
    · simp only
      omega
    · rfl
  | succ n ih =>
    intro retries hk
    rw [makeRequest, hcl retries]
    dsimp only
    by_cases hlt : retries < maxRetries
    · rw [dif_pos (hsrTrue retries hlt)]
      have hrec := ih (retries + 1) (by omega)
      refine ⟨?_, hrec.2⟩
      simp only [hrec.1]
      omega
    · rw [dif_neg (by simp [hsrFalse retries (by omega)])]
      constructor
      · simp only
        omega
      · rfl

theorem ceilDiv_step (m c : Nat) (hc : 0 < c) (hm : 0 < m) :
    (m + c - 1) / c = (m - c + c - 1) / c + 1 := by
  rcases le_or_lt c m with h | h
  · have h1 : m - c + c - 1 = m - 1 := by omega
    have h2 : m + c - 1 = (m - 1) + c := by omega
    rw [h1, h2, Nat.add_div_right _ hc]
  · have h1 : m - c = 0 := by omega
    rw [h1]
    have h2 : (0 + c - 1) / c = 0 := Nat.div_eq_of_lt (by omega)
    have h3 : m + c - 1 = (m - 1) + c := by omega
    rw [h2, h3, Nat.add_div_right _ hc, Nat.div_eq_of_lt (by omega)]

theorem chunkArray_length_aux :
    ∀ (n : Nat) (l : List String) (c : Nat), l.length ≤ n → 0 < c →
      (chunkArray l c).length = (l.length + c - 1) / c := by
  intro n
  induction n with
  | zero =>
    intro l c hl hc
    have hnil : l = [] := List.length_eq_zero.mp (by omega)
    subst hnil
    simp [chunkArray]
    rw [Nat.div_eq_of_lt (by omega)]
  | succ n ih =>
    intro l c hl hc
    by_cases hnil : l = []
    · subst hnil
      simp [chunkArray]
      rw [Nat.div_eq_of_lt (by omega)]
    · rw [chunkArray,
        if_neg (by simp [List.isEmpty_iff, hnil]), if_neg (by omega)]
      have hpos : 0 < l.length := List.length_pos.mpr hnil
      simp only [List.length_cons]
      rw [ih (l.drop c) c (by simp [List.length_drop]; omega) hc]
      rw [ceilDiv_step l.length c hc hpos]
      simp [List.length_drop]

theorem chunkArray_length (l : List String) (c : Nat) (hc : 0 < c) :
    (chunkArray l c).length = (l.length + c - 1) / c :=
  chunkArray_length_aux l.length l c (by omega) hc

theorem chunkArray_join_aux :
    ∀ (n : Nat) (l : List String) (c : Nat), l.length ≤ n → 0 < c →
      (chunkArray l c).flatten = l := by
  intro n
  induction n with
  | zero =>
    intro l c hl hc
    have hnil : l = [] := List.length_eq_zero.mp (by omega)
    subst hnil
    simp [chunkArray]
  | succ n ih =>
    intro l c hl hc
    by_cases hnil : l = []
    · subst hnil
      simp [chunkArray]
    · rw [chunkArray,
        if_neg (by simp [List.isEmpty_iff, hnil]), if_neg (by omega)]
      have hpos : 0 < l.length := List.length_pos.mpr hnil
      rw [List.flatten_cons, ih (l.drop c) c (by simp [List.length_drop]; omega) hc]
      exact List.take_append_drop c l

theorem chunkArray_join (l : List String) (c : Nat) (hc : 0 < c) :
    (chunkArray l c).flatten = l :=
  chunkArray_join_aux l.length l c (by omega) hc

theorem chunkArray_mem_length_aux :
    ∀ (n : Nat) (l : List String) (c : Nat), l.length ≤ n → 0 < c →
      ∀ ch ∈ chunkArray l c, ch.length ≤ c := by
  intro n
  induction n with
  | zero =>
    intro l c hl hc
    have hnil : l = [] := List.length_eq_zero.mp (by omega)
    subst hnil
    simp [chunkArray]
  | succ n ih =>
    intro l c hl hc
    by_cases hnil : l = []
    · subst hnil
      simp [chunkArray]
    · rw [chunkArray,
        if_neg (by simp [List.isEmpty_iff, hnil]), if_neg (by omega)]
      intro ch hch
      rcases List.mem_cons.mp hch with h | h
      · subst h
        simp [List.length_take]
      · exact ih (l.drop c) c (by simp [List.length_drop]; omega) hc ch h

theorem chunkArray_prefix_sum_aux :
    ∀ (n : Nat) (l : List String) (c : Nat), l.length ≤ n → 0 < c → ∀ i : Nat,
      (((chunkArray l c).map List.length).take (i + 1)).sum =
        min ((i + 1) * c) l.length := by
  intro n
  induction n with
  | zero =>
    intro l c hl hc i
    have hnil : l = [] := List.length_eq_zero.mp (by omega)
    subst hnil
    simp [chunkArray]
  | succ n ih =>
    intro l c hl hc i
    by_cases hnil : l = []
    · subst hnil
      simp [chunkArray]
    · rw [chunkArray,
        if_neg (by simp [List.isEmpty_iff, hnil]), if_neg (by omega)]
      have hpos : 0 < l.length := List.length_pos.mpr hnil
      cases i with
      | zero =>
        simp [List.length_take]
      | succ j =>
        rw [List.map_cons, List.take_succ_cons, List.sum_cons,
          ih (l.drop c) c (by simp [List.length_drop]; omega) hc j]
        rw [List.length_take, List.length_drop]
        have hmul : (j + 1 + 1) * c = (j + 1) * c + c := by ring
        rw [hmul]
        generalize (j + 1) * c = a
        omega

theorem runChunks_ok (format : ResponseFormat)
    (oracle : List String → Except VKError BatchBody) (total : Nat) :
    ∀ (chunks : List (List String)) (p : Nat),
      (∀ ch ∈ chunks, ∃ b, oracle ch = Except.ok b) →
      (runChunks format oracle total chunks p).networkCalls = chunks.length ∧
      (runChunks format oracle total chunks p).progress =
        (List.range chunks.length).map
          (fun i => (p + (((chunks.map List.length).take (i + 1)).sum), total)) := by
  intro chunks
  induction chunks with
  | nil =>
    intro p _
    exact ⟨rfl, rfl⟩
  | cons c rest ih =>
    intro p h
    obtain ⟨b, hb⟩ := h c (by simp)
    have hrec := ih (p + c.length) (fun ch hch => h ch (by simp [hch]))
    simp only [runChunks, hb]
    refine ⟨by simp [hrec.1], ?_⟩
    rw [hrec.2, List.length_cons, List.range_succ_eq_map, List.map_cons,
      List.map_map]
    refine List.cons_eq_cons.mpr ⟨by simp, ?_⟩
    apply List.map_congr_left
    intro i _
    simp only [Function.comp_apply, Nat.succ_eq_add_one, List.map_cons,
      List.take_succ_cons, List.sum_cons, Prod.mk.injEq]
    exact ⟨by omega, trivial⟩

theorem keys_recInsert (m : List (String × OutVal)) (k : String) (v : OutVal) :
    (recInsert m k v).map Prod.fst =
      if m.any (·.1 = k) then m.map Prod.fst else m.map Prod.fst ++ [k] := by
  unfold recInsert
  by_cases h : m.any (·.1 = k) = true
  · rw [if_pos h, if_pos h, List.map_map]
    apply List.map_congr_left
    intro p _
    by_cases hp : p.1 = k <;> simp [hp]
  · rw [if_neg h, if_neg h]
    simp

theorem mem_keys_recInsert (m : List (String × OutVal)) (k : String) (v : OutVal)
    (a : String) :
    a ∈ (recInsert m k v).map Prod.fst ↔ a ∈ m.map Prod.fst ∨ a = k := by
  rw [keys_recInsert]
  by_cases h : m.any (·.1 = k) = true
  · rw [if_pos h]
    constructor
    · exact Or.inl
    · rintro (ha | rfl)
      · exact ha
      · obtain ⟨p, hp, hpk⟩ := List.any_eq_true.mp h
        exact List.mem_map.mpr ⟨p, hp, by simpa using hpk⟩
  · rw [if_neg h]
    simp

theorem mem_keys_foldIndexed (entries : List (Nat × CompactResult)) :
    ∀ (ps : List (Nat × String)) (acc : List (String × OutVal)) (a : String),
      a ∈ (ps.foldl (insertIndexed entries) acc).map Prod.fst ↔
        a ∈ acc.map Prod.fst ∨
          ∃ p ∈ ps, (lookupIdx entries p.1).isSome ∧ p.2 = a := by
  intro ps
  induction ps with
  | nil =>
    intro acc a
    simp
  | cons q ps ih =>
    intro acc a
    rw [List.foldl_cons, ih]
    have hstep : insertIndexed entries acc q =
        match lookupIdx entries q.1 with
        | some v => recInsert acc q.2 (.compact v)
        | none => acc := rfl
    cases hq : lookupIdx entries q.1 with
    | none =>
      rw [hstep, hq]
      simp only [List.mem_cons]
      constructor
      · rintro (ha | ⟨p, hp, hs, hpa⟩)
        · exact Or.inl ha
        · exact Or.inr ⟨p, Or.inr hp, hs, hpa⟩
      · rintro (ha | ⟨p, hp | hp, hs, hpa⟩)
        · exact Or.inl ha
        · subst hp
          rw [hq] at hs
          simp at hs
        · exact Or.inr ⟨p, hp, hs, hpa⟩
    | some v =>
      rw [hstep, hq, mem_keys_recInsert]
      simp only [List.mem_cons]
      constructor
      · rintro ((ha | rfl) | ⟨p, hp, hs, hpa⟩)
        · exact Or.inl ha
        · exact Or.inr ⟨q, Or.inl rfl, by simp [hq], rfl⟩
        · exact Or.inr ⟨p, Or.inr hp, hs, hpa⟩
      · rintro (ha | ⟨p, hp | hp, hs, hpa⟩)
        · exact Or.inl (Or.inl ha)
        · subst hp
          exact Or.inl (Or.inr hpa.symm)
        · exact Or.inr ⟨p, hp, hs, hpa⟩

theorem mem_keys_foldEntries (format : ResponseFormat) (tid rid : Option String) :
    ∀ (results : List BatchEntry) (acc : List (String × OutVal)) (a : String),
      a ∈ (results.foldl (insertEntry format tid rid) acc).map Prod.fst ↔
        a ∈ acc.map Prod.fst ∨
          ∃ e ∈ results, e.result.isSome ∧ e.email ≠ "" ∧ e.email = a := by
  intro results
  induction results with
  | nil =>
    intro acc a
    simp
  | cons q results ih =>
    intro acc a
    rw [List.foldl_cons, ih]
    have hkeys : (insertEntry format tid rid acc q).map Prod.fst =
        if q.result.isSome ∧ q.email ≠ "" then
          (recInsert acc q.email (.compact { v := true })).map Prod.fst
        else acc.map Prod.fst := by
      unfold insertEntry
      cases hr : q.result with
      | none => simp
      | some inner =>
        dsimp only
        by_cases he : q.email = ""
        · simp [he]
        · have he' : q.email ≠ "" := he
          rw [if_pos he', if_pos (⟨rfl, he'⟩ : (some inner).isSome = true ∧ q.email ≠ "")]
          by_cases hf : format = .compact
          · rw [if_pos hf, keys_recInsert, keys_recInsert]
          · rw [if_neg hf, keys_recInsert, keys_recInsert]
    by_cases hq : q.result.isSome ∧ q.email ≠ ""
    · rw [hkeys, if_pos hq, mem_keys_recInsert]
      simp only [List.mem_cons]
      constructor
      · rintro ((ha | rfl) | ⟨e, he, hs, hne, hea⟩)
        · exact Or.inl ha
        · exact Or.inr ⟨q, Or.inl rfl, hq.1, hq.2, rfl⟩
        · exact Or.inr ⟨e, Or.inr he, hs, hne, hea⟩
      · rintro (ha | ⟨e, he | he, hs, hne, hea⟩)
        · exact Or.inl (Or.inl ha)
        · subst he
          exact Or.inl (Or.inr hea.symm)
        · exact Or.inr ⟨e, he, hs, hne, hea⟩
    · rw [hkeys, if_neg hq]
      simp only [List.mem_cons]
      constructor
      · rintro (ha | ⟨e, he, hs, hne, hea⟩)
        · exact Or.inl ha
        · exact Or.inr ⟨e, Or.inr he, hs, hne, hea⟩
      · rintro (ha | ⟨e, he | he, hs, hne, hea⟩)
        · exact Or.inl ha
        · subst he
          exact absurd ⟨hs, hne⟩ hq
        · exact Or.inr ⟨e, he, hs, hne, hea⟩

theorem foldIndexed_eq_filterMap (entries : List (Nat × CompactResult)) :
    ∀ (ps : List (Nat × String)) (acc : List (String × OutVal)),
      (∀ p ∈ ps, acc.any (·.1 = p.2) = false) →
      (ps.map Prod.snd).Nodup →
      ps.foldl (insertIndexed entries) acc =
        acc ++ ps.filterMap
          (fun p => (lookupIdx entries p.1).map (fun v => (p.2, OutVal.compact v))) := by
  intro ps
  induction ps with
  | nil =>
    intro acc _ _
    simp
  | cons q ps ih =>
    intro acc hacc hnd
    rw [List.map_cons, List.nodup_cons] at hnd
    rw [List.foldl_cons, List.filterMap_cons]
    cases hq : lookupIdx entries q.1 with
    | none =>
      have hstep : insertIndexed entries acc q = acc := by
        unfold insertIndexed
        rw [hq]
      rw [hstep]
      exact ih acc (fun p hp => hacc p (List.mem_cons_of_mem _ hp)) hnd.2
    | some v =>
      have hstep : insertIndexed entries acc q =
          acc ++ [(q.2, OutVal.compact v)] := by
        unfold insertIndexed
        rw [hq]
        dsimp only
        unfold recInsert
        rw [if_neg (by simp [hacc q (List.mem_cons_self _ _)])]
      rw [hstep, ih (acc ++ [(q.2, OutVal.compact v)]) ?hacc2 hnd.2]
      · simp only [Option.map_some']
        rw [List.append_assoc, List.singleton_append]
      case hacc2 =>
        intro p hp
        rw [List.any_append]
        have h1 : acc.any (·.1 = p.2) = false :=
          hacc p (List.mem_cons_of_mem _ hp)
        have h2 : q.2 ≠ p.2 := by
          intro hqp
          exact hnd.1 (hqp ▸ List.mem_map.mpr ⟨p, hp, rfl⟩)
        simp [h1, h2]

/-! ## The claims -/

/-- C1: the executor retries a failed attempt iff the current retry
counter is < `max_retries` and the classified category is rate-limited,
timeout, connection-failed or server-error; hence at most
`max_retries + 1` HTTP calls per logical request, and a non-retryable
category (invalid-credential, validation, batch-too-large) on the first
attempt yields exactly one call and immediate propagation of the typed
error. -/
theorem c1_retry_policy {D : Type} (maxRetries timeoutMs : Nat)
    (oracle : Nat → Outcome D) (now : Nat → Int) :
    (∀ (e : VKError) (r : Nat),
      shouldRetry maxRetries e r =
        (decide (r < maxRetries) &&
          decide (e.category = .rateLimited ∨ e.category = .timeout ∨
                  e.category = .connectionFailed ∨ e.category = .serverError))) ∧
    (makeRequest maxRetries timeoutMs oracle now 0).calls ≤ maxRetries + 1 ∧
    (∀ e : VKError, classifyOutcome timeoutMs (oracle 0) = .error e →
      (e.category = .invalidCredential ∨ e.category = .validation ∨
       e.category = .batchTooLarge) →
      (makeRequest maxRetries timeoutMs oracle now 0).calls = 1 ∧
      (makeRequest maxRetries timeoutMs oracle now 0).result = .error e) := by
  refine ⟨?_, ?_, ?_⟩
  · intro e r
    by_cases hr : r < maxRetries <;>
      rcases e with ⟨cat, _, _, _, _, _⟩ <;> cases cat <;>
        simp_all [shouldRetry]
  · have := makeRequest_calls_le_aux maxRetries timeoutMs oracle now maxRetries 0 (by omega)
    omega
  · intro e hcl hcat
    have hsr : shouldRetry maxRetries e 0 = false := by
      unfold shouldRetry
      rcases hcat with h | h | h <;> simp [h]
    rw [makeRequest, hcl]
    dsimp only
    rw [dif_neg (by simp [hsr])]
    exact ⟨rfl, rfl⟩

/-- Witness for C1 at a concrete input: `max_retries = 3` and a 401
response — one call, immediate invalid-credential error. -/
theorem c1_retry_policy_witness :
    (makeRequest (D := Unit) 3 30000
      (fun _ => .http 401 "Unauthorized" {} none none) (fun _ => 0) 0).calls = 1 ∧
    (makeRequest (D := Unit) 3 30000
      (fun _ => .http 401 "Unauthorized" {} none none) (fun _ => 0) 0).result =
      .error (mkInvalidAPIKeyError "Invalid or missing API key") :=
  (c1_retry_policy 3 30000 (fun _ => .http 401 "Unauthorized" {} none none)
    (fun _ => 0)).2.2 (mkInvalidAPIKeyError "Invalid or missing API key")
    (by rfl) (Or.inl rfl)

/-- C2 counterexample: a rate-limited error whose detail map carries
both a direct `retry_after` (5 s) and a `retry_after` nested inside its
rate-limit info (7 s).  The claim's precedence — direct detail-map value
first — predicts 5000 ms; the code checks `details?.rate_limit?.retry_after`
first and sleeps 7000 ms. -/
theorem c2_counterexample :
    getRetryDelay (mkRateLimitError "Rate limit exceeded"
      (some { retry_after := some 5,
              rate_limit := some { limit := some 100, remaining := some 0,
                                   reset := some 0, retry_after := some (some 7) } })) 0 0
      = 7000 ∧
    claimedRateLimitDelayC2 (mkRateLimitError "Rate limit exceeded"
      (some { retry_after := some 5,
              rate_limit := some { limit := some 100, remaining := some 0,
                                   reset := some 0, retry_after := some (some 7) } })) 0
      = 5000 ∧
    (7000 : Int) ≠ 5000 := by
  refine ⟨rfl, rfl, by decide⟩

/-- C2 amended: for a rate-limited error the delay follows the source's
precedence (nested detail-map retry-after, then direct detail-map
retry-after, then the constructor-captured info's retry-after, then
`max(0, reset·1000 − now)` from the captured info, then 60000); for
every other category it is `min(1000·2^k, 30000)`, giving the sequence
1000, 2000, 4000, 8000, 16000, 30000, 30000, … and never exceeding
30000. -/
theorem c2_amended (e : VKError) (r : Nat) (now : Int) :
    getRetryDelay e r now =
      (if e.category = .rateLimited then amendedRateLimitDelayC2 e now
       else min (1000 * 2 ^ r) 30000) ∧
    (e.category ≠ .rateLimited → getRetryDelay e r now ≤ 30000) ∧
    (e.category ≠ .rateLimited →
      (List.range 7).map (fun k => getRetryDelay e k now) =
        [1000, 2000, 4000, 8000, 16000, 30000, 30000]) := by
  have heq : ∀ x, amendedRateLimitDelayC2 x now = rateLimitRetryDelay x now := by
    intro x
    rfl
  refine ⟨?_, ?_, ?_⟩
  · by_cases h : e.category = .rateLimited <;> simp [getRetryDelay, h, heq]
  · intro h
    simp [getRetryDelay, h]
  · intro h
    simp [getRetryDelay, h, List.range_succ]

/-- Witness for C2's amended theorem at a concrete input: a connection
error at retry attempt 5 sleeps `min(1000·2^5, 30000) = 30000` ms. -/
theorem c2_amended_witness :
    getRetryDelay (mkConnectionError "Request failed: boom") 5 0 =
      (if (mkConnectionError "Request failed: boom").category = .rateLimited
       then amendedRateLimitDelayC2 (mkConnectionError "Request failed: boom") 0
       else min (1000 * 2 ^ 5) 30000) ∧
    getRetryDelay (mkConnectionError "Request failed: boom") 5 0 ≤ 30000 ∧
    (List.range 7).map (fun k => getRetryDelay (mkConnectionError "Request failed: boom") k 0) =
      [1000, 2000, 4000, 8000, 16000, 30000, 30000] := by
  have h := c2_amended (mkConnectionError "Request failed: boom") 5 0
  exact ⟨h.1, h.2.1 (by decide), h.2.2 (by decide)⟩

/-- C3: the error factory maps status → category with the documented
precedence (401 invalid-credential; 429 rate-limited; 400 with machine
code BATCH_SIZE_EXCEEDED batch-too-large, other 400 validation; 408/504
timeout; 500/502/503 server-error; anything else generic, preserving the
original status and falling back message → reason phrase → templated
string). -/
theorem c3_error_factory (status : Nat) (statusText : String)
    (errorData : Option ErrorData) :
    (status = 401 → (fromApiResponse status statusText errorData).category = .invalidCredential) ∧
    (status = 429 → (fromApiResponse status statusText errorData).category = .rateLimited) ∧
    (status = 400 → errorData.bind (·.code) = some "BATCH_SIZE_EXCEEDED" →
      (fromApiResponse status statusText errorData).category = .batchTooLarge) ∧
    (status = 400 → errorData.bind (·.code) ≠ some "BATCH_SIZE_EXCEEDED" →
      (fromApiResponse status statusText errorData).category = .validation) ∧
    (status = 408 ∨ status = 504 → (fromApiResponse status statusText errorData).category = .timeout) ∧
    (status = 500 ∨ status = 502 ∨ status = 503 →
      (fromApiResponse status statusText errorData).category = .serverError) ∧
    (status ∉ ([401, 429, 400, 408, 504, 500, 502, 503] : List Nat) →
      (fromApiResponse status statusText errorData).category = .generic ∧
      (fromApiResponse status statusText errorData).statusCode = some (status : Int) ∧
      (∀ m, errorData.bind (·.message) = some m → m ≠ "" →
        (fromApiResponse status statusText errorData).message = m) ∧
      ((errorData.bind (·.message) = none ∨ errorData.bind (·.message) = some "") →
        statusText ≠ "" →
        (fromApiResponse status statusText errorData).message = statusText) ∧
      ((errorData.bind (·.message) = none ∨ errorData.bind (·.message) = some "") →
        statusText = "" →
        (fromApiResponse status statusText errorData).message =
          "API request failed with status " ++ toString status)) := by
  refine ⟨?_, ?_, ?_, ?_, ?_, ?_, ?_⟩
  · intro h
    simp [fromApiResponse, h, mkInvalidAPIKeyError]
  · intro h
    simp [fromApiResponse, h, mkRateLimitError]
  · intro h hc
    simp [fromApiResponse, h, hc, mkBatchSizeError]
  · intro h hc
    simp [fromApiResponse, h, hc, mkValidationError]
  · rintro (h | h) <;> simp [fromApiResponse, h, mkTimeoutError]
  · rintro (h | h | h) <;> simp [fromApiResponse, h, mkServerError]
  · intro h
    simp only [List.mem_cons, List.not_mem_nil, or_false, not_or] at h
    obtain ⟨h401, h429, h400, h408, h504, h500, h502, h503⟩ := h
    refine ⟨?_, ?_, ?_, ?_, ?_⟩
    · simp [fromApiResponse, h401, h429, h400, h408, h504, h500, h502, h503]
    · simp [fromApiResponse, h401, h429, h400, h408, h504, h500, h502, h503]
    · intro m hm hne
      simp [fromApiResponse, h401, h429, h400, h408, h504, h500, h502, h503, strOrD, hm, hne]
    · rintro (hm | hm) hst <;>
        simp [fromApiResponse, h401, h429, h400, h408, h504, h500, h502, h503, strOrD, hm, hst]
    · rintro (hm | hm) hst <;>
        simp [fromApiResponse, h401, h429, h400, h408, h504, h500, h502, h503, strOrD, hm, hst]

/-- Witness for C3 at a concrete input: status 418 with no payload is
generic, keeps status 418 and uses the templated message. -/
theorem c3_error_factory_witness :
    (fromApiResponse 418 "" none).category = .generic ∧
    (fromApiResponse 418 "" none).statusCode = some (418 : Int) ∧
    (fromApiResponse 418 "" none).message = "API request failed with status " ++ toString 418 := by
  have h := (c3_error_factory 418 "" none).2.2.2.2.2.2 (by decide)
  exact ⟨h.1, h.2.1, h.2.2.2.2 (Or.inl rfl) rfl⟩

/-- C4: `verifyBatch` raises a validation error on an empty list and a
batch-too-large error on a list longer than 10000 — in both cases with
zero network calls (the error is raised before the executor is ever
reached, so no retry can apply). -/
theorem c4_batch_preconditions (format : ResponseFormat) (chunkSize : Nat)
    (oracle : List String → Except VKError BatchBody) :
    ((verifyBatchRun [] format chunkSize oracle).networkCalls = 0 ∧
     (verifyBatchRun [] format chunkSize oracle).result =
       .error (mkValidationError "Emails must be a non-empty array") ∧
     (mkValidationError "Emails must be a non-empty array").category = .validation) ∧
    (∀ emails : List String, emails.length > 10000 →
      (verifyBatchRun emails format chunkSize oracle).networkCalls = 0 ∧
      (verifyBatchRun emails format chunkSize oracle).result =
        .error (mkBatchSizeError
          ("Batch size cannot exceed " ++ toString MAX_BATCH_SIZE ++
           " emails. Use verifyBatchAsync for larger batches.")) ∧
      (mkBatchSizeError
          ("Batch size cannot exceed " ++ toString MAX_BATCH_SIZE ++
           " emails. Use verifyBatchAsync for larger batches.")).category = .batchTooLarge) := by
  refine ⟨⟨rfl, rfl, rfl⟩, ?_⟩
  intro emails hlen
  have hne : emails.isEmpty = false := by
    cases emails with
    | nil => simp at hlen
    | cons a l => rfl
  unfold verifyBatchRun
  rw [hne]
  simp only [Bool.false_eq_true, if_false]
  rw [if_pos (by simpa [MAX_BATCH_SIZE] using hlen)]
  exact ⟨rfl, rfl, rfl⟩

/-- Witness for C4 at a concrete input: 10001 emails give zero calls and
a batch-too-large error. -/
theorem c4_batch_preconditions_witness :
    (verifyBatchRun (List.replicate 10001 "a@example.com") .compact 1000
        (fun _ => .ok .nonObj)).networkCalls = 0 ∧
    (verifyBatchRun (List.replicate 10001 "a@example.com") .compact 1000
        (fun _ => .ok .nonObj)).result =
      .error (mkBatchSizeError
        ("Batch size cannot exceed " ++ toString MAX_BATCH_SIZE ++
         " emails. Use verifyBatchAsync for larger batches.")) ∧
    (mkBatchSizeError
        ("Batch size cannot exceed " ++ toString MAX_BATCH_SIZE ++
         " emails. Use verifyBatchAsync for larger batches.")).category = .batchTooLarge :=
  (c4_batch_preconditions .compact 1000 (fun _ => .ok .nonObj)).2
    (List.replicate 10001 "a@example.com") (by rw [List.length_replicate]; omega)

/-- C7: for a single-verify compact request on the nested shape, the
normalized result's `v` equals the nested validity flag, `d` is `true`
exactly when the nested disposable check's value is truthy (and absent
otherwise), and no `r` (reason) field is ever present. -/
theorem c7_single_compact (env : SingleEnvelope) :
    ∃ c : CompactResult,
      verifyEmailNormalize .compact (.nested env) = .compactOut c ∧
      c.v = env.result.valid ∧
      c.d = (if dispTruthy env.result then some true else none) ∧
      c.r = none :=
  ⟨_, rfl, rfl, rfl, rfl⟩

/-- C10: a 2xx response whose body fails JSON decoding is not surfaced
as a parse or validation error: every attempt is classified as a
connection-failed typed error, retried to exhaustion under the normal
policy (`max_retries + 1` calls), and finally propagated as
connection-failed. -/
theorem c10_invalid_json_success (maxRetries timeoutMs : Nat) (headers : Headers)
    (jsonErrMsg : String) (now : Nat → Int) :
    (makeRequest (D := Unit) maxRetries timeoutMs
        (fun _ => .http 200 "OK" headers none none jsonErrMsg) now 0).calls =
      maxRetries + 1 ∧
    (makeRequest (D := Unit) maxRetries timeoutMs
        (fun _ => .http 200 "OK" headers none none jsonErrMsg) now 0).result =
      .error (mkConnectionError ("Request failed: " ++ jsonErrMsg)) := by
  have h := makeRequest_const_error maxRetries timeoutMs
    (D := Unit) (fun _ => .http 200 "OK" headers none none jsonErrMsg) now
    (mkConnectionError ("Request failed: " ++ jsonErrMsg))
    (fun k => by simp [classifyOutcome, mkConnectionError])
    (Or.inr (Or.inr (Or.inl rfl)))
    maxRetries 0 (by omega)
  simpa using h

/-- C5: for `chunkSize < n ≤ 10000`, `verifyBatch` splits the input into
`⌈n / chunkSize⌉` consecutive slices of at most `chunkSize` elements
preserving order (their concatenation is the input), issues exactly that
many sequential chunk calls, and invokes the progress callback once per
chunk, in order, with cumulative counts `chunkSize, 2·chunkSize, …, n`,
each paired with the total `n`. -/
theorem c5_chunking (emails : List String) (c : Nat) (format : ResponseFormat)
    (oracle : List String → Except VKError BatchBody)
    (hc : 0 < c) (hlt : c < emails.length) (hmax : emails.length ≤ 10000)
    (hok : ∀ ch ∈ chunkArray emails c, ∃ b, oracle ch = Except.ok b) :
    (chunkArray emails c).length = (emails.length + c - 1) / c ∧
    (chunkArray emails c).flatten = emails ∧
    (∀ ch ∈ chunkArray emails c, ch.length ≤ c) ∧
    (verifyBatchRun emails format c oracle).networkCalls =
      (emails.length + c - 1) / c ∧
    (verifyBatchRun emails format c oracle).progress =
      (List.range ((emails.length + c - 1) / c)).map
        (fun i => (min ((i + 1) * c) emails.length, emails.length)) := by
  have hne : emails.isEmpty = false := by
    cases emails with
    | nil => simp at hlt
    | cons a l => rfl
  have hrun : verifyBatchRun emails format c oracle =
      runChunks format oracle emails.length (chunkArray emails c) 0 := by
    unfold verifyBatchRun
    rw [hne]
    simp only [Bool.false_eq_true, if_false]
    rw [if_neg (by simp [MAX_BATCH_SIZE]; omega), if_neg (by omega)]
  have hok' := runChunks_ok format oracle emails.length (chunkArray emails c) 0 hok
  refine ⟨chunkArray_length emails c hc, chunkArray_join emails c hc,
    chunkArray_mem_length_aux emails.length emails c (by omega) hc, ?_, ?_⟩
  · rw [hrun, hok'.1, chunkArray_length emails c hc]
  · rw [hrun, hok'.2, chunkArray_length emails c hc]
    apply List.map_congr_left
    intro i _
    rw [chunkArray_prefix_sum_aux emails.length emails c (by omega) hc i]
    simp

/-- Witness for C5 at a concrete input: five emails with chunk size 2
give 3 chunks, 3 calls and progress (2,5), (4,5), (5,5). -/
theorem c5_chunking_witness :
    (chunkArray ["a", "b", "c", "d", "e"] 2).length = (5 + 2 - 1) / 2 ∧
    (chunkArray ["a", "b", "c", "d", "e"] 2).flatten = ["a", "b", "c", "d", "e"] ∧
    (∀ ch ∈ chunkArray ["a", "b", "c", "d", "e"] 2, ch.length ≤ 2) ∧
    (verifyBatchRun ["a", "b", "c", "d", "e"] .compact 2
        (fun _ => Except.ok .nonObj)).networkCalls = (5 + 2 - 1) / 2 ∧
    (verifyBatchRun ["a", "b", "c", "d", "e"] .compact 2
        (fun _ => Except.ok .nonObj)).progress =
      (List.range ((5 + 2 - 1) / 2)).map (fun i => (min ((i + 1) * 2) 5, 5)) :=
  c5_chunking ["a", "b", "c", "d", "e"] 2 .compact (fun _ => Except.ok .nonObj)
    (by omega) (by simp) (by simp) (fun ch _ => ⟨.nonObj, rfl⟩)

/-- C6 counterexample: with the full format requested and an
indexed-compact body, the client does NOT re-key by the submitted
emails — the first normalization branch requires the compact format, so
the body falls through to the raw passthrough, still keyed by the
stringified index. -/
theorem c6_counterexample :
    processBatchChunk ["a@example.com"] .full (.indexedObj [(0, { v := true })]) =
      .raw (.indexedObj [(0, { v := true })]) ∧
    processBatchChunk ["a@example.com"] .full (.indexedObj [(0, { v := true })]) ≠
      .map [("a@example.com", .compact { v := true })] := by
  exact ⟨rfl, by decide⟩

/-- C6 amended: when the requested format is compact (only then) and the
body has the indexed-compact shape, normalization re-keys the mapping by
the submitted chunk's positional email strings, leaving the indexed
values unchanged (stated for a chunk of distinct emails; with the full
format the body is returned raw, per the counterexample). -/
theorem c6_amended (emails : List String) (entries : List (Nat × CompactResult))
    (hnd : emails.Nodup) :
    processBatchChunk emails .compact (.indexedObj entries) =
      .map (emails.enum.filterMap
        (fun p => (lookupIdx entries p.1).map (fun v => (p.2, OutVal.compact v)))) := by
  have h := foldIndexed_eq_filterMap entries emails.enum []
    (fun p _ => rfl) (by rw [List.enum_map_snd]; exact hnd)
  unfold processBatchChunk
  dsimp only
  rw [h, List.nil_append]

/-- Witness for C6's amended theorem at a concrete input: two distinct
emails, indexed values re-keyed with values unchanged. -/
theorem c6_amended_witness :
    processBatchChunk ["a@x.com", "b@x.com"] .compact
        (.indexedObj [(0, { v := true }), (1, { v := false, r := some "invalid" })]) =
      .map ((["a@x.com", "b@x.com"] : List String).enum.filterMap
        (fun p => (lookupIdx [(0, { v := true }),
            (1, { v := false, r := some "invalid" })] p.1).map
          (fun v => (p.2, OutVal.compact v)))) :=
  c6_amended ["a@x.com", "b@x.com"]
    [(0, { v := true }), (1, { v := false, r := some "invalid" })] (by decide)

/-- C8 counterexample: ceiling header "100" with remaining header "abc"
— the claim predicts `remaining = 0` ("defaulting to 0 when absent or
unparsable"), but `parseInt('abc')` is `NaN`, not 0: the `|| '0'`
fallback only applies when the header is absent. -/
theorem c8_counterexample :
    extractRateLimit
        { xRateLimitLimit := some "100", xRateLimitRemaining := some "abc" } =
      some
        { limit := some 100, remaining := none, reset := some 0,
          retry_after := none } ∧
    (extractRateLimit
        { xRateLimitLimit := some "100",
          xRateLimitRemaining := some "abc" }).map RateLimitInfo.remaining ≠
      some (some 0) := by
  refine ⟨rfl, ?_⟩
  intro hcontra
  rw [show extractRateLimit
        { xRateLimitLimit := some "100", xRateLimitRemaining := some "abc" } =
      some
        { limit := some 100, remaining := none, reset := some 0,
          retry_after := none } from rfl] at hcontra
  simp at hcontra

/-- C8 amended: Rate Limit Info is derived iff the ceiling header is
present with a non-empty value; ceiling/remaining/reset are each
`parseInt(header || '0')` — 0 when the header is absent, but `NaN` (not
0) when it is present and unparsable; retry-after is parsed when its
header is present and non-empty and stays undefined when absent. -/
theorem c8_amended (h : Headers) :
    ((extractRateLimit h).isSome = strTruthy h.xRateLimitLimit) ∧
    (∀ info, extractRateLimit h = some info →
      info.limit = parseIntJs (strOrD h.xRateLimitLimit "0") ∧
      info.remaining = parseIntJs (strOrD h.xRateLimitRemaining "0") ∧
      info.reset = parseIntJs (strOrD h.xRateLimitReset "0") ∧
      (h.xRateLimitRemaining = none → info.remaining = some 0) ∧
      (h.xRateLimitReset = none → info.reset = some 0) ∧
      (h.retryAfter = none → info.retry_after = none) ∧
      (∀ s, h.retryAfter = some s → s ≠ "" →
        info.retry_after = some (parseIntJs s))) ∧
    parseIntJs "abc" = none ∧ parseIntJs "" = none ∧ parseIntJs "42" = some 42 := by
  refine ⟨?_, ?_, rfl, rfl, rfl⟩
  · unfold extractRateLimit
    by_cases hl : strTruthy h.xRateLimitLimit = true
    · rw [if_pos hl, hl]
      rfl
    · rw [if_neg hl]
      rw [Bool.not_eq_true] at hl
      rw [hl]
      rfl
  · intro info hinfo
    unfold extractRateLimit at hinfo
    by_cases hl : strTruthy h.xRateLimitLimit = true
    · rw [if_pos hl] at hinfo
      injection hinfo with hinfo
      subst hinfo
      refine ⟨rfl, rfl, rfl, ?_, ?_, ?_, ?_⟩
      · intro hr
        rw [hr]
        rfl
      · intro hr
        rw [hr]
        rfl
      · intro hr
        rw [hr]
      · intro s hs hne
        rw [hs]
        dsimp only
        rw [if_neg hne]
    · rw [if_neg hl] at hinfo
      exact absurd hinfo (by simp)

/-- Witness for C8's amended theorem at a concrete input: ceiling "1000"
present, remaining header absent (parsed as 0), retry-after "60". -/
theorem c8_amended_witness :
    (extractRateLimit
        { xRateLimitLimit := some "1000", xRateLimitRemaining := none,
          xRateLimitReset := some "5", retryAfter := some "60" }).isSome =
      strTruthy (some "1000") ∧
    ({ limit := some 1000, remaining := some 0, reset := some 5,
       retry_after := some (some 60) } : RateLimitInfo).remaining = some 0 := by
  have h := c8_amended
    { xRateLimitLimit := some "1000", xRateLimitRemaining := none,
      xRateLimitReset := some "5", retryAfter := some "60" }
  exact ⟨h.1,
    (h.2.1
      { limit := some 1000, remaining := some 0, reset := some 5,
        retry_after := some (some 60) } rfl).2.2.2.1 rfl⟩

/-- C9: a non-empty list that fits in one chunk issues exactly one
underlying call; when that call succeeds with a recognizable response
covering every submitted position (indexed-compact shape with every
index present), the returned map's key set equals the set of input
emails; for the enveloped-list shape the keys are exactly the echoed
emails of usable entries, which equals the input set under the coverage
hypotheses. -/
theorem c9_single_chunk (emails : List String) (c : Nat)
    (oracle : List String → Except VKError BatchBody)
    (hne : emails ≠ []) (hfit : emails.length ≤ c) (hmax : emails.length ≤ 10000) :
    (verifyBatchRun emails .compact c oracle).networkCalls = 1 ∧
    (∀ entries, oracle emails = .ok (.indexedObj entries) →
      (∀ i, i < emails.length → (lookupIdx entries i).isSome = true) →
      ∃ m, (verifyBatchRun emails .compact c oracle).result = .ok [.map m] ∧
        ∀ a, a ∈ m.map Prod.fst ↔ a ∈ emails) ∧
    (∀ results tid rid, oracle emails = .ok (.withResults results tid rid) →
      ∃ m, (verifyBatchRun emails .compact c oracle).result = .ok [.map m] ∧
        ((∀ a, a ∈ m.map Prod.fst ↔
            ∃ e ∈ results, e.result.isSome ∧ e.email ≠ "" ∧ e.email = a) ∧
         ((∀ a ∈ emails, ∃ e ∈ results, e.result.isSome ∧ e.email ≠ "" ∧ e.email = a) →
          (∀ e ∈ results, e.result.isSome → e.email ≠ "" → e.email ∈ emails) →
          ∀ a, a ∈ m.map Prod.fst ↔ a ∈ emails))) := by
  have hempty : emails.isEmpty = false := by
    cases emails with
    | nil => exact absurd rfl hne
    | cons a l => rfl
  have hrw : verifyBatchRun emails .compact c oracle =
      (match oracle emails with
       | .ok body =>
         { networkCalls := 1, progress := [],
           result := .ok [processBatchChunk emails .compact body] }
       | .error e => { networkCalls := 1, progress := [], result := .error e }) := by
    unfold verifyBatchRun
    rw [hempty]
    simp only [Bool.false_eq_true, if_false]
    rw [if_neg (by simp [MAX_BATCH_SIZE]; omega), if_pos hfit]
  refine ⟨?_, ?_, ?_⟩
  · rw [hrw]
    cases oracle emails <;> rfl
  · intro entries hor hcov
    rw [hrw, hor]
    refine ⟨emails.enum.foldl (insertIndexed entries) [], rfl, ?_⟩
    intro a
    rw [mem_keys_foldIndexed entries emails.enum [] a]
    simp only [List.map_nil, List.not_mem_nil, false_or]
    constructor
    · rintro ⟨p, hp, _, hpa⟩
      have hsnd := List.mem_map_of_mem Prod.snd hp
      rw [List.enum_map_snd] at hsnd
      exact hpa ▸ hsnd
    · intro ha
      obtain ⟨i, hget⟩ := List.mem_iff_getElem?.mp ha
      obtain ⟨hi, _⟩ := List.getElem?_eq_some.mp hget
      exact ⟨(i, a), List.mk_mem_enum_iff_getElem?.mpr hget, hcov i hi, rfl⟩
  · intro results tid rid hor
    rw [hrw, hor]
    refine ⟨results.foldl (insertEntry .compact tid rid) [], rfl, ?_, ?_⟩
    · intro a
      rw [mem_keys_foldEntries .compact tid rid results [] a]
      simp
    · intro hcover hsub a
      rw [mem_keys_foldEntries .compact tid rid results [] a]
      simp only [List.map_nil, List.not_mem_nil, false_or]
      constructor
      · rintro ⟨e, he, hs, hne', rfl⟩
        exact hsub e he hs hne'
      · intro ha
        exact hcover a ha

/-- Witness for C9 at a concrete input: two emails, chunk size 2, an
indexed response covering indices 0 and 1 — one call and keys =
inputs. -/
theorem c9_single_chunk_witness :
    (verifyBatchRun ["a@x.com", "b@x.com"] .compact 2
      (fun _ => Except.ok (.indexedObj
        [(0, { v := true }), (1, { v := false })]))).networkCalls = 1 ∧
    ∃ m, (verifyBatchRun ["a@x.com", "b@x.com"] .compact 2
        (fun _ => Except.ok (.indexedObj
          [(0, { v := true }), (1, { v := false })]))).result = .ok [.map m] ∧
      ∀ a, a ∈ m.map Prod.fst ↔ a ∈ ["a@x.com", "b@x.com"] := by
  have h := c9_single_chunk ["a@x.com", "b@x.com"] 2
    (fun _ => Except.ok (.indexedObj [(0, { v := true }), (1, { v := false })]))
    (by simp) (by simp) (by simp)
  exact ⟨h.1, h.2.1 [(0, { v := true }), (1, { v := false })] rfl (by decide)⟩

end ValidKit
